import Mathlib

/-!
Shallow embedding of the one-time-secret service (src/app/cache.py and
src/app/main.py): an in-memory store of encrypted secrets with TTL,
read-once retrieval via the HTTP endpoint, and passphrase-gated deletion.

Embedding conventions:
* the Python dict `secrets_cache` becomes a key-unique association list,
  threaded explicitly through each operation (Python mutates a global);
* `datetime` timestamps become integer seconds, and each call of
  `datetime.now()` inside one operation is the same instant `now`,
  passed as an explicit argument (the injected-clock view of the spec);
* the Fernet cipher of src/app/encryption.py is an external collaborator:
  encryption is an opaque function argument, decryption an opaque
  `String → Option String` where `none` embeds a raised exception;
* FastAPI `HTTPException` responses become result-variant constructors
  (404 NotFound, 403 PassphraseMismatch, 500 DecryptionError), since the
  endpoints raise them only as final answers, never as control flow that
  is caught; audit logging (src/app/db.py) has no effect on the store or
  on the response value and is omitted.
-/

/-- Embedding of class SecretEntry in src/app/cache.py: the cached record
holding the ciphertext, the optional passphrase and the absolute
expiration timestamp. -/
structure SecretEntry where
  encrypted_secret : String
  passphrase : Option String
  expiration : Int
deriving DecidableEq, Repr

/-- The secrets cache: a Python dict from secret key to entry, embedded
as an association list whose lookups take the first matching key. -/
abbrev Store := List (String × SecretEntry)

/-- Embedding of Python dict lookup (`dict.get(k)`): the first entry
stored under the key, if any. -/
def dictGet : Store → String → Option SecretEntry
  | [], _ => none
  | (k', v') :: rest, k => if k' = k then some v' else dictGet rest k

/-- Embedding of Python dict assignment (`d[k] = v`): replaces the entry
under the key in place, or appends a fresh binding. -/
def dictSet : Store → String → SecretEntry → Store
  | [], k, v => [(k, v)]
  | (k', v') :: rest, k, v =>
      if k' = k then (k, v) :: rest else (k', v') :: dictSet rest k v

/-- Embedding of Python dict deletion (`del d[k]`): drops the bindings
stored under the key. -/
def dictDel : Store → String → Store
  | [], _ => []
  | (k', v') :: rest, k =>
      if k' = k then dictDel rest k else (k', v') :: dictDel rest k

/-- Embedding of add_secret in src/app/cache.py: clamps the requested TTL
to at least 300 seconds, computes the absolute expiration from the
current time and stores the entry with a plain dict assignment. -/
def add_secret (cache : Store) (secret_key : String)
    (encrypted_secret : String) (passphrase : Option String)
    (ttl_seconds : Int) (now : Int) : Store :=
  let ttl := max ttl_seconds 300
  let expiration_time := now + ttl
  dictSet cache secret_key ⟨encrypted_secret, passphrase, expiration_time⟩

/-- Embedding of get_secret in src/app/cache.py: returns the entry when
present and not yet expired; an expired entry is deleted from the cache
(lazy eviction) and `none` is returned.  The global-dict mutation is
threaded explicitly: the result pairs the returned value with the cache
as it stands after the call. -/
def get_secret (cache : Store) (secret_key : String) (now : Int) :
    Option SecretEntry × Store :=
  match dictGet cache secret_key with
  | some entry =>
      if now < entry.expiration then (some entry, cache)
      else (none, dictDel cache secret_key)
  | none => (none, cache)

/-- Embedding of delete_secret in src/app/cache.py: removes the key from
the cache when present (and leaves the cache unchanged otherwise). -/
def delete_secret (cache : Store) (secret_key : String) : Store :=
  dictDel cache secret_key

/-- The `for key in list(secrets_cache.keys())` loop of
clear_expired_secrets in src/app/cache.py, iterating over a snapshot of
the keys and deleting each entry whose expiration has been reached. -/
def sweep_loop : List String → Store → Int → Store
  | [], cache, _ => cache
  | k :: ks, cache, now =>
      match dictGet cache k with
      | some e =>
          if e.expiration ≤ now then sweep_loop ks (delete_secret cache k) now
          else sweep_loop ks cache now
      | none => sweep_loop ks cache now

/-- One pass of the body of clear_expired_secrets in src/app/cache.py
(the coroutine runs this pass, sleeps 60 seconds, and repeats forever).
The pass sweeps a snapshot of the keys.  The Python body contains no
`return` statement, so the value a pass produces is Python `None`; that
return value is embedded as `none : Option Nat`, the type in which a
removal count would live if one were returned. -/
def clear_expired_secrets_pass (cache : Store) (now : Int) :
    Store × Option Nat :=
  (sweep_loop (cache.map Prod.fst) cache now, none)

/-- Python truthiness of an `Optional[str]` value: `None` and the empty
string are falsy, every other string is truthy. -/
def truthy : Option String → Bool
  | none => false
  | some s => !(s == "")

/-- Response of the GET /secrets/{secret_key} endpoint: the decrypted
secret (HTTP 200), "not found or expired" (HTTP 404), or a decryption
failure (HTTP 500). -/
inductive GetSecretResult where
  | ok (secret : String)
  | notFound
  | decryptionError
deriving DecidableEq, Repr

/-- Embedding of get_secret_endpoint in src/app/main.py: looks the key up
with get_secret (404 when absent or expired), decrypts the stored
ciphertext (500 when decryption raises, embedded as `decrypt _ = none`),
and only then deletes the entry and returns the plaintext. -/
def get_secret_endpoint (decrypt : String → Option String) (cache : Store)
    (secret_key : String) (now : Int) : GetSecretResult × Store :=
  let r := get_secret cache secret_key now
  match r.1 with
  | none => (.notFound, r.2)
  | some entry =>
      match decrypt entry.encrypted_secret with
      | none => (.decryptionError, r.2)
      | some plain_text => (.ok plain_text, delete_secret r.2 secret_key)

/-- Response of the DELETE /secrets/{secret_key} endpoint: deleted
(HTTP 200), "not found or expired" (HTTP 404), or wrong passphrase
(HTTP 403). -/
inductive DeleteSecretResult where
  | deleted
  | notFound
  | passphraseMismatch
deriving DecidableEq, Repr

/-- Embedding of delete_secret_endpoint in src/app/main.py: looks the key
up with get_secret (404 when absent or expired); when the stored
passphrase is truthy, requires the supplied passphrase to be truthy and
equal to it (403 otherwise, with no state change); then removes the
entry. -/
def delete_secret_endpoint (cache : Store) (secret_key : String)
    (passphrase : Option String) (now : Int) : DeleteSecretResult × Store :=
  let r := get_secret cache secret_key now
  match r.1 with
  | none => (.notFound, r.2)
  | some entry =>
      if truthy entry.passphrase then
        if truthy passphrase = false ∨ passphrase ≠ entry.passphrase then
          (.passphraseMismatch, r.2)
        else (.deleted, delete_secret r.2 secret_key)
      else (.deleted, delete_secret r.2 secret_key)

/-- Embedding of create_secret in src/app/main.py: encrypts the payload,
clamps the TTL to at least 300 seconds and stores the ciphertext under a
freshly generated key.  The uuid4 key generator and the Fernet cipher
are external collaborators, so the fresh key and the encryption function
are arguments; the request model makes the passphrase a required string,
so the stored passphrase is `some passphrase`. -/
def create_secret (encrypt : String → String) (cache : Store)
    (secret_key : String) (secret : String) (passphrase : String)
    (ttl : Int) (now : Int) : String × Store :=
  let encrypted := encrypt secret
  let ttl' := max ttl 300
  (secret_key, add_secret cache secret_key encrypted (some passphrase) ttl' now)

theorem dictGet_dictDel (s : Store) (k k' : String) :
    dictGet (dictDel s k) k' = if k' = k then none else dictGet s k' := by
  induction s with
  | nil => simp [dictDel, dictGet]
  | cons kv rest ih =>
      obtain ⟨k₀, v₀⟩ := kv
      simp only [dictDel, dictGet]
      split_ifs <;> simp_all [dictGet, ih]

theorem dictGet_dictSet (s : Store) (k k' : String) (v : SecretEntry) :
    dictGet (dictSet s k v) k' = if k' = k then some v else dictGet s k' := by
  induction s with
  | nil =>
      by_cases h : k' = k
      · subst h
        simp [dictSet, dictGet]
      · simp only [dictSet, dictGet, if_neg h]
        rw [if_neg (fun hh : k = k' => h hh.symm)]
  | cons kv rest ih =>
      obtain ⟨k₀, v₀⟩ := kv
      by_cases h₀ : k₀ = k
      · subst h₀
        simp only [dictSet, if_pos rfl, dictGet]
        by_cases h₁ : k' = k₀
        · subst h₁
          simp
        · rw [if_neg (fun hh : k₀ = k' => h₁ hh.symm), if_neg h₁,
              if_neg (fun hh : k₀ = k' => h₁ hh.symm)]
      · simp only [dictSet, if_neg h₀, dictGet]
        by_cases h₁ : k₀ = k'
        · rw [if_pos h₁, if_neg (fun hh : k' = k => h₀ (h₁.trans hh)),
              if_pos h₁]
        · rw [if_neg h₁, ih, if_neg h₁]

theorem dictGet_mem_keys (s : Store) (k : String) (e : SecretEntry)
    (h : dictGet s k = some e) : k ∈ s.map Prod.fst := by
  induction s with
  | nil => simp [dictGet] at h
  | cons kv rest ih =>
      obtain ⟨k₀, v₀⟩ := kv
      by_cases h₀ : k₀ = k
      · simp [h₀]
      · simp only [dictGet, if_neg h₀] at h
        simp [ih h]

theorem sweep_loop_get_none (ks : List String) (cache : Store) (now : Int)
    (k : String) (h : dictGet cache k = none) :
    dictGet (sweep_loop ks cache now) k = none := by
  induction ks generalizing cache with
  | nil => simpa [sweep_loop] using h
  | cons k' ks ih =>
      simp only [sweep_loop]
      cases h' : dictGet cache k' with
      | none => exact ih cache h
      | some e' =>
          dsimp only
          by_cases hexp : e'.expiration ≤ now
          · rw [if_pos hexp]
            refine ih _ ?_
            rw [delete_secret, dictGet_dictDel]
            by_cases hk : k = k' <;> simp [hk, h]
          · rw [if_neg hexp]
            exact ih cache h

theorem sweep_loop_get_some (ks : List String) (cache : Store) (now : Int)
    (k : String) (e : SecretEntry) (h : dictGet cache k = some e) :
    dictGet (sweep_loop ks cache now) k =
      if k ∈ ks ∧ e.expiration ≤ now then none else some e := by
  induction ks generalizing cache with
  | nil => simpa [sweep_loop] using h
  | cons k' ks ih =>
      simp only [sweep_loop]
      cases h' : dictGet cache k' with
      | none =>
          have hk : ¬k = k' := by
            intro hh
            rw [hh, h'] at h
            cases h
          rw [ih cache h]
          simp [List.mem_cons, hk]
      | some e' =>
          dsimp only
          by_cases hexp : e'.expiration ≤ now
          · rw [if_pos hexp]
            by_cases hk : k = k'
            · subst hk
              rw [h'] at h
              injection h with he
              subst he
              have hgone : dictGet (delete_secret cache k) k = none := by
                simp [delete_secret, dictGet_dictDel]
              rw [sweep_loop_get_none ks _ now k hgone]
              simp [hexp]
            · have hkeep : dictGet (delete_secret cache k') k = some e := by
                rw [delete_secret, dictGet_dictDel, if_neg hk, h]
              rw [ih _ hkeep]
              simp [List.mem_cons, hk]
          · rw [if_neg hexp]
            by_cases hk : k = k'
            · subst hk
              rw [h'] at h
              injection h with he
              subst he
              rw [ih cache h']
              simp [hexp]
            · rw [ih cache h]
              simp [List.mem_cons, hk]


theorem get_secret_live (cache : Store) (k : String) (e : SecretEntry)
    (now : Int) (hget : dictGet cache k = some e)
    (hlive : now < e.expiration) :
    get_secret cache k now = (some e, cache) := by
  simp [get_secret, hget, hlive]

theorem get_secret_endpoint_hit (decrypt : String → Option String)
    (cache : Store) (k : String) (e : SecretEntry) (now : Int)
    (plain : String) (hget : dictGet cache k = some e)
    (hlive : now < e.expiration)
    (hdec : decrypt e.encrypted_secret = some plain) :
    get_secret_endpoint decrypt cache k now = (.ok plain, dictDel cache k) := by
  simp [get_secret_endpoint, get_secret_live cache k e now hget hlive, hdec,
    delete_secret]

theorem get_secret_endpoint_absent (decrypt : String → Option String)
    (cache : Store) (k : String) (now : Int)
    (habs : dictGet cache k = none) :
    get_secret_endpoint decrypt cache k now = (.notFound, cache) := by
  simp [get_secret_endpoint, get_secret, habs]

/-- C1: read-once retrieval.  For a stored, unexpired secret whose
ciphertext decrypts, the GET endpoint returns the plaintext and removes
the store entry in the same operation, so a second retrieval of the same
key finds nothing and answers NotFound (HTTP 404). -/
theorem C1_read_once (decrypt : String → Option String) (cache : Store)
    (k : String) (e : SecretEntry) (now : Int) (plain : String)
    (hget : dictGet cache k = some e) (hlive : now < e.expiration)
    (hdec : decrypt e.encrypted_secret = some plain) :
    (get_secret_endpoint decrypt cache k now).1 = .ok plain ∧
    dictGet (get_secret_endpoint decrypt cache k now).2 k = none ∧
    (get_secret_endpoint decrypt (get_secret_endpoint decrypt cache k now).2
        k now).1 = .notFound := by
  have h1 := get_secret_endpoint_hit decrypt cache k e now plain hget hlive hdec
  have h2 : dictGet (dictDel cache k) k = none := by
    simp [dictGet_dictDel]
  refine ⟨by rw [h1], by rw [h1]; exact h2, ?_⟩
  rw [h1]
  rw [get_secret_endpoint_absent decrypt (dictDel cache k) k now h2]

theorem C1_read_once_witness :
    (get_secret_endpoint some [("k", ⟨"hello", none, 60⟩)] "k" 0).1 =
      .ok "hello" ∧
    dictGet (get_secret_endpoint some [("k", ⟨"hello", none, 60⟩)] "k" 0).2
      "k" = none ∧
    (get_secret_endpoint some
        (get_secret_endpoint some [("k", ⟨"hello", none, 60⟩)] "k" 0).2
        "k" 0).1 = .notFound :=
  C1_read_once some [("k", ⟨"hello", none, 60⟩)] "k" ⟨"hello", none, 60⟩ 0
    "hello" (by decide) (by decide) rfl

/-- C2: expired records are never returned.  When the record under a key
satisfies expiration ≤ now at the time of access, get_secret answers
`none` and deletes the expired entry from the cache in the same call, so
the key no longer resolves afterwards (lazy eviction). -/
theorem C2_expired_never_returned (cache : Store) (k : String)
    (e : SecretEntry) (now : Int) (hget : dictGet cache k = some e)
    (hexp : e.expiration ≤ now) :
    (get_secret cache k now).1 = none ∧
    (get_secret cache k now).2 = dictDel cache k ∧
    dictGet (get_secret cache k now).2 k = none := by
  have hnl : ¬now < e.expiration := not_lt.mpr hexp
  simp [get_secret, hget, hnl, dictGet_dictDel]

theorem C2_expired_never_returned_witness :
    (get_secret [("k", ⟨"c", none, 10⟩)] "k" 10).1 = none ∧
    (get_secret [("k", ⟨"c", none, 10⟩)] "k" 10).2 =
      dictDel [("k", ⟨"c", none, 10⟩)] "k" ∧
    dictGet (get_secret [("k", ⟨"c", none, 10⟩)] "k" 10).2 "k" = none :=
  C2_expired_never_returned [("k", ⟨"c", none, 10⟩)] "k" ⟨"c", none, 10⟩ 10
    (by decide) (by decide)

/-- C3: floor TTL.  create_secret stores the record with expiration
now + max(requestedTTL, 300): the effective lifetime is never below 300
seconds, and any requested TTL below 300 yields exactly now + 300. -/
theorem C3_floor_ttl (encrypt : String → String) (cache : Store)
    (k secret pass : String) (ttl now : Int) :
    dictGet (create_secret encrypt cache k secret pass ttl now).2 k =
      some ⟨encrypt secret, some pass, now + max ttl 300⟩ ∧
    now + 300 ≤ now + max ttl 300 ∧
    (ttl < 300 → now + max ttl 300 = now + 300) := by
  refine ⟨?_, by simp [le_max_right], fun h => by rw [max_eq_right h.le]⟩
  simp [create_secret, add_secret, dictGet_dictSet, max_assoc]

theorem C3_floor_ttl_witness :
    dictGet (create_secret id [] "k" "s" "pw" 60 0).2 "k" =
      some ⟨id "s", some "pw", 0 + max 60 300⟩ ∧
    (0:Int) + 300 ≤ 0 + max 60 300 ∧
    ((60:Int) < 300 ∧ (0:Int) + max 60 300 = 0 + 300) := by
  have h := C3_floor_ttl id [] "k" "s" "pw" 60 0
  exact ⟨h.1, h.2.1, by decide, h.2.2 (by decide)⟩

/-- C4: passphrase-mismatch atomicity.  For a stored, unexpired record
protected by a (truthy) passphrase, a delete request whose supplied
passphrase differs from the stored one answers PassphraseMismatch
(HTTP 403) and changes nothing: the cache is returned untouched and a
subsequent get_secret on the same key still finds the record. -/
theorem C4_mismatch_no_effect (cache : Store) (k : String) (e : SecretEntry)
    (now : Int) (supplied : Option String)
    (hget : dictGet cache k = some e) (hlive : now < e.expiration)
    (hprot : truthy e.passphrase = true) (hne : supplied ≠ e.passphrase) :
    delete_secret_endpoint cache k supplied now = (.passphraseMismatch, cache) ∧
    (get_secret cache k now).1 = some e := by
  refine ⟨?_, by rw [get_secret_live cache k e now hget hlive]⟩
  simp [delete_secret_endpoint, get_secret_live cache k e now hget hlive,
    hprot, hne]

theorem C4_mismatch_no_effect_witness :
    delete_secret_endpoint [("k", ⟨"c", some "pw", 60⟩)] "k" (some "guess") 0 =
      (.passphraseMismatch, [("k", ⟨"c", some "pw", 60⟩)]) ∧
    (get_secret [("k", ⟨"c", some "pw", 60⟩)] "k" 0).1 =
      some ⟨"c", some "pw", 60⟩ :=
  C4_mismatch_no_effect [("k", ⟨"c", some "pw", 60⟩)] "k" ⟨"c", some "pw", 60⟩
    0 (some "guess") (by decide) (by decide) (by decide) (by decide)

/-- C5: successful passphrase-gated delete.  For a stored, unexpired
record protected by a (truthy) passphrase, a delete request supplying
exactly the stored passphrase answers Deleted, removes the record, and a
subsequent get_secret on the same key finds nothing. -/
theorem C5_correct_passphrase_deletes (cache : Store) (k : String)
    (e : SecretEntry) (now : Int)
    (hget : dictGet cache k = some e) (hlive : now < e.expiration)
    (hprot : truthy e.passphrase = true) :
    (delete_secret_endpoint cache k e.passphrase now).1 = .deleted ∧
    (delete_secret_endpoint cache k e.passphrase now).2 = dictDel cache k ∧
    (get_secret (delete_secret_endpoint cache k e.passphrase now).2 k
        now).1 = none := by
  have hrun : delete_secret_endpoint cache k e.passphrase now =
      (.deleted, dictDel cache k) := by
    simp [delete_secret_endpoint, get_secret_live cache k e now hget hlive,
      hprot, delete_secret]
  refine ⟨by rw [hrun], by rw [hrun], ?_⟩
  rw [hrun]
  simp [get_secret, dictGet_dictDel]

theorem C5_correct_passphrase_deletes_witness :
    (delete_secret_endpoint [("k", ⟨"c", some "pw", 60⟩)] "k"
        (SecretEntry.passphrase ⟨"c", some "pw", 60⟩) 0).1 = .deleted ∧
    (delete_secret_endpoint [("k", ⟨"c", some "pw", 60⟩)] "k"
        (SecretEntry.passphrase ⟨"c", some "pw", 60⟩) 0).2 =
      dictDel [("k", ⟨"c", some "pw", 60⟩)] "k" ∧
    (get_secret (delete_secret_endpoint [("k", ⟨"c", some "pw", 60⟩)] "k"
        (SecretEntry.passphrase ⟨"c", some "pw", 60⟩) 0).2 "k" 0).1 = none :=
  C5_correct_passphrase_deletes [("k", ⟨"c", some "pw", 60⟩)] "k"
    ⟨"c", some "pw", 60⟩ 0 (by decide) (by decide) (by decide)

/-- C9: a secret stored with the empty-string passphrase is unprotected.
Python truthiness makes `""` falsy, so delete_secret_endpoint skips the
passphrase check entirely: whatever value is supplied (including none),
a stored, unexpired record with passphrase `some ""` is deleted and the
endpoint answers Deleted, never PassphraseMismatch. -/
theorem C9_empty_passphrase_unprotected (cache : Store) (k : String)
    (e : SecretEntry) (now : Int) (supplied : Option String)
    (hget : dictGet cache k = some e) (hlive : now < e.expiration)
    (hempty : e.passphrase = some "") :
    (delete_secret_endpoint cache k supplied now).1 = .deleted ∧
    (delete_secret_endpoint cache k supplied now).2 = dictDel cache k := by
  simp [delete_secret_endpoint, get_secret_live cache k e now hget hlive,
    hempty, truthy, delete_secret]

theorem C9_empty_passphrase_unprotected_witness :
    (delete_secret_endpoint [("k", ⟨"c", some "", 60⟩)] "k" none 0).1 =
      .deleted ∧
    (delete_secret_endpoint [("k", ⟨"c", some "", 60⟩)] "k" none 0).2 =
      dictDel [("k", ⟨"c", some "", 60⟩)] "k" :=
  C9_empty_passphrase_unprotected [("k", ⟨"c", some "", 60⟩)] "k"
    ⟨"c", some "", 60⟩ 0 none (by decide) (by decide) (by decide)

/-- C6 counterexample: add_secret with a key already present does not
reject or regenerate — it silently replaces the record.  Starting from a
store holding ("k" ↦ ciphertext "c1"), calling add_secret with the same
key "k" yields a store in which the old record is gone and the new one
sits under "k". -/
theorem C6_counterexample :
    add_secret [("k", ⟨"c1", none, 400⟩)] "k" "c2" none 300 100 =
      [("k", ⟨"c2", none, 400⟩)] ∧
    dictGet (add_secret [("k", ⟨"c1", none, 400⟩)] "k" "c2" none 300 100)
      "k" ≠ some ⟨"c1", none, 400⟩ := by decide

/-- C6 amended: add_secret performs a plain dict assignment.  The new
record is always stored under the given key — overwriting whatever was
there before — and every other key is left unchanged; there is no
collision rejection and no key regeneration. -/
theorem C6_silent_replace (cache : Store) (k : String) (enc : String)
    (p : Option String) (ttl now : Int) :
    dictGet (add_secret cache k enc p ttl now) k =
      some ⟨enc, p, now + max ttl 300⟩ ∧
    (∀ k', k' ≠ k → dictGet (add_secret cache k enc p ttl now) k' =
      dictGet cache k') := by
  constructor
  · simp [add_secret, dictGet_dictSet]
  · intro k' hk
    simp [add_secret, dictGet_dictSet, hk]

theorem C6_silent_replace_witness :
    dictGet (add_secret [("k", ⟨"c1", none, 400⟩)] "k" "c2" none 300 100)
      "k" = some ⟨"c2", none, 100 + max 300 300⟩ ∧
    ("j" : String) ≠ "k" ∧
    dictGet (add_secret [("k", ⟨"c1", none, 400⟩)] "k" "c2" none 300 100)
      "j" = dictGet [("k", ⟨"c1", none, 400⟩)] "j" :=
  ⟨(C6_silent_replace [("k", ⟨"c1", none, 400⟩)] "k" "c2" none 300 100).1,
    by decide,
    (C6_silent_replace [("k", ⟨"c1", none, 400⟩)] "k" "c2" none 300 100).2
      "j" (by decide)⟩

/-- C7 counterexample: a sweep pass does not return the number of records
removed.  On a store holding one expired record the pass empties the
store — exactly one record was removed — yet the value the Python body
produces is None (embedded as `none`), not the count 1. -/
theorem C7_counterexample :
    (clear_expired_secrets_pass [("k", ⟨"c", none, 10⟩)] 10).1 = [] ∧
    (clear_expired_secrets_pass [("k", ⟨"c", none, 10⟩)] 10).2 ≠
      some 1 := by decide

/-- C7 amended: each sweep pass removes every record whose expiration has
been reached (expiration ≤ now), leaves every non-expired record in
place, and returns no count — the loop body of clear_expired_secrets
produces Python None. -/
theorem C7_sweep_pass_postcondition (cache : Store) (now : Int)
    (k : String) :
    (∀ e, dictGet cache k = some e → e.expiration ≤ now →
        dictGet (clear_expired_secrets_pass cache now).1 k = none) ∧
    (∀ e, dictGet cache k = some e → now < e.expiration →
        dictGet (clear_expired_secrets_pass cache now).1 k = some e) ∧
    (clear_expired_secrets_pass cache now).2 = none := by
  refine ⟨fun e hget hexp => ?_, fun e hget hlive => ?_, rfl⟩
  · have hmem := dictGet_mem_keys cache k e hget
    simp only [clear_expired_secrets_pass]
    rw [sweep_loop_get_some (cache.map Prod.fst) cache now k e hget]
    simp [hmem, hexp]
  · have hnexp : ¬e.expiration ≤ now := not_le.mpr hlive
    simp only [clear_expired_secrets_pass]
    rw [sweep_loop_get_some (cache.map Prod.fst) cache now k e hget]
    simp [hnexp]

theorem C7_sweep_pass_postcondition_witness :
    dictGet (clear_expired_secrets_pass
      [("a", ⟨"c1", none, 10⟩), ("b", ⟨"c2", none, 50⟩)] 10).1 "a" = none ∧
    dictGet (clear_expired_secrets_pass
      [("a", ⟨"c1", none, 10⟩), ("b", ⟨"c2", none, 50⟩)] 10).1 "b" =
      some ⟨"c2", none, 50⟩ ∧
    (clear_expired_secrets_pass
      [("a", ⟨"c1", none, 10⟩), ("b", ⟨"c2", none, 50⟩)] 10).2 = none :=
  ⟨(C7_sweep_pass_postcondition
      [("a", ⟨"c1", none, 10⟩), ("b", ⟨"c2", none, 50⟩)] 10 "a").1
      ⟨"c1", none, 10⟩ (by decide) (by decide),
    (C7_sweep_pass_postcondition
      [("a", ⟨"c1", none, 10⟩), ("b", ⟨"c2", none, 50⟩)] 10 "b").2.1
      ⟨"c2", none, 50⟩ (by decide) (by decide),
    (C7_sweep_pass_postcondition
      [("a", ⟨"c1", none, 10⟩), ("b", ⟨"c2", none, 50⟩)] 10 "a").2.2⟩

/-- C8: single-winner race.  get_secret_endpoint is an async def handler
run on the asyncio event loop, and its body contains no await between
the existence check (get_secret) and the removal (delete_secret), so two
concurrent requests racing on one key execute those bodies without
interleaving: the race resolves to the two calls running one after the
other, and since both racers perform the identical operation the two
serialization orders coincide.  For a stored, unexpired, decryptable
secret, the serialized pair of calls has exactly one winner receiving
the record; the other caller gets NotFound. -/
theorem C8_single_winner (decrypt : String → Option String) (cache : Store)
    (k : String) (e : SecretEntry) (now : Int) (plain : String)
    (hget : dictGet cache k = some e) (hlive : now < e.expiration)
    (hdec : decrypt e.encrypted_secret = some plain) :
    ((if (get_secret_endpoint decrypt cache k now).1 =
          GetSecretResult.ok plain then (1:Nat) else 0) +
      (if (get_secret_endpoint decrypt
            (get_secret_endpoint decrypt cache k now).2 k now).1 =
          GetSecretResult.ok plain then (1:Nat) else 0) = 1) ∧
    (get_secret_endpoint decrypt
        (get_secret_endpoint decrypt cache k now).2 k now).1 =
      GetSecretResult.notFound := by
  have h1 := get_secret_endpoint_hit decrypt cache k e now plain hget hlive hdec
  have h2 : dictGet (dictDel cache k) k = none := by
    simp [dictGet_dictDel]
  have h3 := get_secret_endpoint_absent decrypt (dictDel cache k) k now h2
  rw [h1]
  simp [h3]

theorem C8_single_winner_witness :
    ((if (get_secret_endpoint some [("k", ⟨"hello", none, 60⟩)] "k" 30).1 =
          GetSecretResult.ok "hello" then (1:Nat) else 0) +
      (if (get_secret_endpoint some
            (get_secret_endpoint some [("k", ⟨"hello", none, 60⟩)] "k" 30).2
            "k" 30).1 =
          GetSecretResult.ok "hello" then (1:Nat) else 0) = 1) ∧
    (get_secret_endpoint some
        (get_secret_endpoint some [("k", ⟨"hello", none, 60⟩)] "k" 30).2
        "k" 30).1 = GetSecretResult.notFound :=
  C8_single_winner some [("k", ⟨"hello", none, 60⟩)] "k" ⟨"hello", none, 60⟩
    30 "hello" (by decide) (by decide) rfl

/-- C10: retrieval is not consumed on decryption failure.  When the
record under a key is present and unexpired but decrypt raises (embedded
as `decrypt _ = none`), get_secret_endpoint answers DecryptionError
(HTTP 500) and leaves the cache exactly as it was: the record is still
there and a later get_secret on the same key finds it again. -/
theorem C10_decrypt_failure_preserves_entry (decrypt : String → Option String)
    (cache : Store) (k : String) (e : SecretEntry) (now : Int)
    (hget : dictGet cache k = some e) (hlive : now < e.expiration)
    (hdec : decrypt e.encrypted_secret = none) :
    get_secret_endpoint decrypt cache k now = (.decryptionError, cache) ∧
    (get_secret (get_secret_endpoint decrypt cache k now).2 k now).1 =
      some e := by
  have hrun : get_secret_endpoint decrypt cache k now =
      (.decryptionError, cache) := by
    simp [get_secret_endpoint, get_secret_live cache k e now hget hlive, hdec]
  refine ⟨hrun, ?_⟩
  rw [hrun]
  rw [get_secret_live cache k e now hget hlive]

theorem C10_decrypt_failure_preserves_entry_witness :
    get_secret_endpoint (fun _ => none) [("k", ⟨"c", none, 60⟩)] "k" 0 =
      (.decryptionError, [("k", ⟨"c", none, 60⟩)]) ∧
    (get_secret (get_secret_endpoint (fun _ => none)
        [("k", ⟨"c", none, 60⟩)] "k" 0).2 "k" 0).1 =
      some ⟨"c", none, 60⟩ :=
  C10_decrypt_failure_preserves_entry (fun _ => none)
    [("k", ⟨"c", none, 60⟩)] "k" ⟨"c", none, 60⟩ 0 (by decide) (by decide) rfl
